import Mathlib

/-!
Verification development for the grammar-llama repository
(src/grammar_llama/main.py).

The program is a hotkey-driven clipboard grammar corrector built on a
single-threaded asyncio event loop.  We embed:

* the pure configuration accessors (get_model, get_prompt,
  get_hotkey_combo) over an explicit environment value;
* the sentence chunker chunk_text (re.split with a lookbehind on
  sentence-ending punctuation, then strip and drop falsy pieces);
* the startup check run_startup_tasks as a function from the failure
  condition to the process outcome;
* the 100ms polling wait loop inside correct_grammar;
* a small-step operational model of the orchestrator: the shared state
  (runs, asyncio lock holder, shared cancelled flag, current task,
  clipboard), the atomic hotkey handler handle_hotkey, and one step
  function per atomic block of process_text between its suspension
  points.  On a single-threaded asyncio loop a coroutine runs
  atomically from one suspension point to the next, and task.cancel()
  is delivered as CancelledError when the suspended task is next
  scheduled; the Step relation below reflects exactly that.
-/

namespace GrammarLlama

/-! ## Configuration accessors (module top of main.py) -/

def DEFAULT_MODEL : String := "gemma3"

def DEFAULT_PROMPT : String :=
  "Correct the spelling, grammar, or phrasing issues in the following text. " ++
  "Try to match the tone of the original message. " ++
  "The response will be a JSON object that contains:\n " ++
  " - original_grammar_strength: A ranking (1-3, 1 if incomprehensible, 2 if moderate changes needed, 3 if little to no changes needed)\n" ++
  " - corrected_text: The corrected text\n" ++
  " - summary_of_corrections: A brief summary of the changes made\n" ++
  " - tone: One word describing the tone of the message (friendly, casual, professional, sarcastic, etc.)" ++
  "Use only JSON-safe characters in your response."

/-- Embedding of get_model: os.getenv("CHECKER_MODEL") is none when the
variable is unset; Python string truthiness makes the empty string fall
back to the default exactly like an unset variable. -/
def get_model (envModel : Option String) : String :=
  match envModel with
  | some m => if m = "" then DEFAULT_MODEL else m
  | none => DEFAULT_MODEL

/-- Embedding of get_prompt: same truthiness pattern as get_model. -/
def get_prompt (envPrompt : Option String) : String :=
  match envPrompt with
  | some p => if p = "" then DEFAULT_PROMPT else p
  | none => DEFAULT_PROMPT

/-- Embedding of GrammarChecker.get_hotkey_combo: the CHECKER_HOTKEY value
if truthy, else the platform default chosen by is_mac. -/
def get_hotkey_combo (isMac : Bool) (envHotkey : Option String) : String :=
  match envHotkey with
  | some h =>
    if h = "" then (if isMac then "<ctrl>+<cmd>+a" else "<ctrl>+<alt>+a") else h
  | none => if isMac then "<ctrl>+<cmd>+a" else "<ctrl>+<alt>+a"

/-! ## chunk_text -/

/-- ASCII whitespace, the characters Python treats as whitespace both in
the regex class backslash-s and in str.strip (restricted to ASCII). -/
def pyIsSpace (c : Char) : Bool :=
  c == ' ' || c == '\t' || c == '\n' || c == '\r' || c == '\x0b' || c == '\x0c'

/-- The sentence-ending punctuation of the lookbehind class [.!?]. -/
def isSentenceEnd (c : Char) : Bool :=
  c == '.' || c == '!' || c == '?'

/-- Right strip: remove trailing whitespace, structurally recursive. -/
def rstripChars : List Char → List Char
  | [] => []
  | c :: xs =>
    match rstripChars xs with
    | [] => if pyIsSpace c then [] else [c]
    | y :: ys => c :: y :: ys

/-- Embedding of Python str.strip (ASCII whitespace): remove leading and
trailing whitespace. -/
def stripChars (l : List Char) : List Char :=
  rstripChars (l.dropWhile pyIsSpace)

/-- Embedding of re.split over the chunking pattern: split the text at
every maximal whitespace run whose immediately preceding character is
sentence-ending punctuation.  `prev` is the character before the current
position (a space stands in at the start, where the lookbehind cannot
match), `skipping` records that we are inside the whitespace run of a
match, `acc` is the reversed current piece. -/
def splitSentencesAux : List Char → Char → Bool → List Char → List (List Char)
  | [], _, _, acc => [acc.reverse]
  | c :: rest, prev, skipping, acc =>
    if skipping then
      if pyIsSpace c then splitSentencesAux rest prev true acc
      else splitSentencesAux rest c false [c]
    else if isSentenceEnd prev && pyIsSpace c then
      acc.reverse :: splitSentencesAux rest prev true []
    else
      splitSentencesAux rest c false (c :: acc)

/-- re.split of the pattern with lookbehind [.!?] over the whole text. -/
def splitSentences (text : List Char) : List (List Char) :=
  splitSentencesAux text ' ' false []

/-- Embedding of chunk_text: strip every piece of the sentence split and
keep only the pieces whose strip is non-empty (Python truthiness of the
stripped string). -/
def chunk_text (text : List Char) : List (List Char) :=
  ((splitSentences text).filter (fun s => !(stripChars s).isEmpty)).map stripChars

/-! ## Startup check -/

/-- The condition the startup probes (ps(), then show(model)) encounter. -/
inductive StartupCondition
  | ok
  | unreachable
  | modelMissing
deriving DecidableEq

/-- Outcome of run_startup_tasks: either the process proceeds to accept
activations, or it terminates with the given exit status. -/
inductive StartupOutcome
  | proceed
  | exitWith (code : Nat)
deriving DecidableEq

/-- Embedding of GrammarChecker.run_startup_tasks: ConnectError from the
probes (service unreachable) is answered by sys.exit(1), ResponseError
(model not found) also by sys.exit(1); otherwise startup passes. -/
def run_startup_tasks : StartupCondition → StartupOutcome
  | .ok => .proceed
  | .unreachable => .exitWith 1
  | .modelMissing => .exitWith 1

/-! ## The 100ms polling wait loop of correct_grammar -/

/-- Outcome of the wait loop around the chat task.  `cancelledRaised b`
is the branch that runs chat_task.cancel() (recorded by `b`) and then
raises CancelledError; `completedAwait` is the loop exit that awaits the
finished chat task; `stillWaiting` is only reached when the fuel runs
out, i.e. the loop is still polling. -/
inductive WaitOutcome
  | cancelledRaised (chatCancelled : Bool)
  | completedAwait
  | stillWaiting
deriving DecidableEq

/-- Embedding of the loop `while not chat_task.done(): if self.cancelled:
chat_task.cancel(); raise CancelledError; await asyncio.sleep(0.1)`.
`done t` and `cancelled t` give the chat-task doneness and the flag as
observed at poll number `t`; one unit of `t` is one 100ms sleep.  The
result carries the poll at which the loop decided. -/
def pollLoop (done cancelled : Nat → Bool) : Nat → Nat → WaitOutcome × Nat
  | 0, t => (.stillWaiting, t)
  | fuel + 1, t =>
    if done t then (.completedAwait, t)
    else if cancelled t then (.cancelledRaised true, t)
    else pollLoop done cancelled fuel (t + 1)

/-! ## Orchestrator model -/

/-- Embedding of the pydantic Response model.  The strength rank is kept
as a Nat (the source constrains it to the literals 1, 2, 3). -/
structure Response where
  original_grammar_strength : Nat
  corrected_text : String
  summary_of_corrections : String
  tone : String
deriving DecidableEq

/-- Python truthiness test `response and response.corrected_text` applied
to the value correct_grammar hands back (None on any failure path). -/
def usableResult : Option Response → Bool
  | none => false
  | some r => if r.corrected_text = "" then false else true

/-- Lifecycle position of one pipeline run, as the atomic blocks of
process_text between suspension points:
* notStarted: the task is created but its body has not run;
* waitingLock: suspended in the lock acquisition of `async with`;
* captureSleep: lock held, the copy key-chord has been injected,
  suspended at the 100ms sleep of copy_text_at_cursor;
* polling: lock held, the chat task exists, suspended at the 100ms
  sleep of the wait loop in correct_grammar;
* applySleep: lock held, copy(corrected_text) has written the clipboard
  and the paste key-chord has been injected, suspended at the 100ms
  sleep of paste_text_at_cursor;
* completed / cancelledSt: the task finished normally / by
  CancelledError. -/
inductive RunPhase
  | notStarted
  | waitingLock
  | captureSleep
  | polling
  | applySleep
  | completed
  | cancelledSt
deriving DecidableEq

/-- task.done(): the task has finished, normally or by cancellation. -/
def RunPhase.isTerminal : RunPhase → Bool
  | .completed => true
  | .cancelledSt => true
  | _ => false

/-- Phases in which the run holds the lock and is inside the
clipboard-touching pipeline body (capture / awaiting correction /
apply). -/
def inClip : RunPhase → Bool
  | .captureSleep => true
  | .polling => true
  | .applySleep => true
  | _ => false

/-- One pipeline run (one asyncio task created by handle_hotkey).
`cancelRequested` records that task.cancel() has been called on it;
`chatDone` / `chatResult` record the chat task; `applied` records that
the run executed its apply phase (copy of the corrected text plus paste
key-chord). -/
structure Run where
  phase : RunPhase
  cancelRequested : Bool
  chatDone : Bool
  chatResult : Option Response
  originalText : String
  applied : Bool
deriving DecidableEq

/-- A freshly created task for process_text. -/
def newRun : Run :=
  { phase := .notStarted, cancelRequested := false, chatDone := false,
    chatResult := none, originalText := "", applied := false }

/-- The orchestrator state: the runs created so far (indexed by creation
order, which is the monotonic run identifier; indices at or beyond
`nRuns` are padding), the asyncio lock holder, the shared
`self.cancelled` flag, `self.current_task`, and the clipboard. -/
structure SysState where
  nRuns : Nat
  runs : Nat → Run
  lockHolder : Option Nat
  cancelled : Bool
  currentTask : Option Nat
  clipboard : String

/-- State at the end of GrammarChecker.__init__ (no task yet, lock free,
flag false), with the given initial clipboard content. -/
def initState (c0 : String) : SysState :=
  { nRuns := 0, runs := fun _ => newRun, lockHolder := none,
    cancelled := false, currentTask := none, clipboard := c0 }

/-- Pointwise update of the run table. -/
def upd (f : Nat → Run) (i : Nat) (g : Run → Run) : Nat → Run :=
  fun j => if j = i then g (f j) else f j

/-- self.current_task.done() for the run at index i. -/
def taskDone (s : SysState) (i : Nat) : Bool :=
  ((s.runs i).phase).isTerminal

/-- Embedding of GrammarChecker.handle_hotkey.  It contains no await, so
on the event loop it executes atomically: if the current task exists and
is not done, set self.cancelled = True and call current_task.cancel();
then unconditionally set self.cancelled = False and create and schedule
a new process_text task, making it the current task. -/
def handle_hotkey (s : SysState) : SysState :=
  let s1 :=
    match s.currentTask with
    | some i =>
      if taskDone s i then s
      else { s with cancelled := true,
                    runs := upd s.runs i (fun r => { r with cancelRequested := true }) }
    | none => s
  { s1 with cancelled := false,
            nRuns := s1.nRuns + 1,
            currentTask := some s1.nRuns,
            runs := upd s1.runs s1.nRuns (fun _ => newRun) }

/-- Lock acquisition plus the copy key-chord: the OS copies the current
selection into the clipboard when one is readable (`sel = some t`) and
leaves the clipboard unchanged when it cannot read one (`sel = none`);
the run then suspends at the sleep of copy_text_at_cursor. -/
def acquireStep (s : SysState) (i : Nat) (sel : Option String) : SysState :=
  { s with lockHolder := some i,
           clipboard := match sel with | some t => t | none => s.clipboard,
           runs := upd s.runs i (fun r => { r with phase := .captureSleep }) }

/-- First block of process_text when the lock is free: `self.cancelled =
False`, acquire the lock without suspending, inject the copy key-chord,
suspend at the capture sleep. -/
def enterAcquireStep (s : SysState) (i : Nat) (sel : Option String) : SysState :=
  acquireStep { s with cancelled := false } i sel

/-- First block of process_text when the lock is held: `self.cancelled =
False`, then suspend waiting for the lock. -/
def enterWaitStep (s : SysState) (i : Nat) : SysState :=
  { s with cancelled := false,
           runs := upd s.runs i (fun r => { r with phase := .waitingLock }) }

/-- Resumption from the capture sleep: paste() reads the clipboard as the
original text, correct_grammar creates the chat task, and the run
suspends at the first poll sleep. -/
def captureResumeStep (s : SysState) (i : Nat) : SysState :=
  { s with runs := upd s.runs i
             (fun r => { r with phase := .polling, originalText := s.clipboard }) }

/-- The external chat task resolves with `res` (none models every failure
path of correct_grammar that returns None: missing content,
ResponseError, validation errors). -/
def serviceCompleteStep (s : SysState) (i : Nat) (res : Option Response) : SysState :=
  { s with runs := upd s.runs i
             (fun r => { r with chatDone := true, chatResult := res }) }

/-- Resumption from a poll sleep, the block of correct_grammar's wait
loop plus, on loop exit, the tail of process_text up to the next
suspension: if the chat task is not done, the loop checks the shared
flag (raising CancelledError and releasing the lock when it is set) or
sleeps again; if it is done with a usable result, process_text prints
the diff and summary, writes the clipboard with copy(corrected_text),
injects the paste key-chord and suspends at the paste sleep; on an
unusable result it skips the paste, releases the lock and completes. -/
def pollResumeStep (s : SysState) (i : Nat) : SysState :=
  let r := s.runs i
  if r.chatDone then
    match r.chatResult with
    | some resp =>
      if resp.corrected_text = "" then
        { s with lockHolder := none,
                 runs := upd s.runs i (fun x => { x with phase := .completed }) }
      else
        { s with clipboard := resp.corrected_text,
                 runs := upd s.runs i
                   (fun x => { x with phase := .applySleep, applied := true }) }
    | none =>
      { s with lockHolder := none,
               runs := upd s.runs i (fun x => { x with phase := .completed }) }
  else if s.cancelled then
    { s with lockHolder := none,
             runs := upd s.runs i (fun x => { x with phase := .cancelledSt }) }
  else s

/-- Resumption from the paste sleep: process_text returns, the `async
with` releases the lock, the run completes. -/
def applyResumeStep (s : SysState) (i : Nat) : SysState :=
  { s with lockHolder := none,
           runs := upd s.runs i (fun r => { r with phase := .completed }) }

/-- Delivery of a requested task cancellation at a suspension point (or
before the body ever ran): CancelledError propagates out of the body,
the `async with` releases the lock if this run holds it, and the task
ends cancelled. -/
def cancelDeliverStep (s : SysState) (i : Nat) : SysState :=
  { s with lockHolder := if s.lockHolder = some i then none else s.lockHolder,
           runs := upd s.runs i (fun r => { r with phase := .cancelledSt }) }

/-- One atomic step of the event loop: either the hotkey handler runs, or
one suspended pipeline task is scheduled and executes its next atomic
block, or the external chat call resolves, or a pending task
cancellation is delivered.  Normal resumption of a task with a pending
cancellation is impossible: the scheduler delivers CancelledError
instead, hence the `cancelRequested = false` guards. -/
inductive Step : SysState → SysState → Prop
  | hotkey (s : SysState) : Step s (handle_hotkey s)
  | enterAcquire (s : SysState) (i : Nat) (sel : Option String)
      (hi : i < s.nRuns) (hp : (s.runs i).phase = .notStarted)
      (hc : (s.runs i).cancelRequested = false) (hl : s.lockHolder = none) :
      Step s (enterAcquireStep s i sel)
  | enterWait (s : SysState) (i : Nat)
      (hi : i < s.nRuns) (hp : (s.runs i).phase = .notStarted)
      (hc : (s.runs i).cancelRequested = false) (hl : s.lockHolder ≠ none) :
      Step s (enterWaitStep s i)
  | acquireFromWait (s : SysState) (i : Nat) (sel : Option String)
      (hi : i < s.nRuns) (hp : (s.runs i).phase = .waitingLock)
      (hc : (s.runs i).cancelRequested = false) (hl : s.lockHolder = none) :
      Step s (acquireStep s i sel)
  | captureResume (s : SysState) (i : Nat)
      (hi : i < s.nRuns) (hp : (s.runs i).phase = .captureSleep)
      (hc : (s.runs i).cancelRequested = false) :
      Step s (captureResumeStep s i)
  | serviceComplete (s : SysState) (i : Nat) (res : Option Response)
      (hi : i < s.nRuns) (hp : (s.runs i).phase = .polling)
      (hd : (s.runs i).chatDone = false) :
      Step s (serviceCompleteStep s i res)
  | pollResume (s : SysState) (i : Nat)
      (hi : i < s.nRuns) (hp : (s.runs i).phase = .polling)
      (hc : (s.runs i).cancelRequested = false) :
      Step s (pollResumeStep s i)
  | applyResume (s : SysState) (i : Nat)
      (hi : i < s.nRuns) (hp : (s.runs i).phase = .applySleep)
      (hc : (s.runs i).cancelRequested = false) :
      Step s (applyResumeStep s i)
  | cancelDeliver (s : SysState) (i : Nat)
      (hi : i < s.nRuns) (hp : ((s.runs i).phase).isTerminal = false)
      (hc : (s.runs i).cancelRequested = true) :
      Step s (cancelDeliverStep s i)

/-- States reachable from some initial clipboard content by event-loop
steps. -/
inductive Reachable : SysState → Prop
  | init (c0 : String) : Reachable (initState c0)
  | step {s s2 : SysState} : Reachable s → Step s s2 → Reachable s2

/-- The lock invariant: any run inside the clipboard-touching body holds
the lock. -/
def LockInv (s : SysState) : Prop :=
  ∀ i, inClip (s.runs i).phase = true → s.lockHolder = some i

/-! ## Concrete executions used as witnesses and counterexamples -/

/-- The stubbed correction result of the spec scenario. -/
def respEx : Response :=
  { original_grammar_strength := 2,
    corrected_text := "They are going to the store.",
    summary_of_corrections := "Fixed homophone.",
    tone := "neutral" }

/-- One activation from the initial state: run 0 created. -/
def s_run0 : SysState := handle_hotkey (initState "")

/-- Run 0 acquires the lock, the copy key-chord captures the selection. -/
def s_cap0 : SysState := enterAcquireStep s_run0 0 (some "Their going to the store.")

/-- Run 0 reads the clipboard and starts awaiting the correction. -/
def s_poll0 : SysState := captureResumeStep s_cap0 0

/-- The correction service answers run 0 with a usable result. -/
def s_done0 : SysState := serviceCompleteStep s_poll0 0 (some respEx)

/-- Run 0 resumes, sees the usable result, writes the clipboard and
injects the paste key-chord, suspending at the paste sleep. -/
def s_apply0 : SysState := pollResumeStep s_done0 0

/-- A second activation arrives while run 0 is in its paste sleep: run 0
is cancelled by the superseding activation. -/
def s_super0 : SysState := handle_hotkey s_apply0

/-- The pending cancellation is delivered to run 0: it ends cancelled,
after its apply already executed. -/
def s_cex1 : SysState := cancelDeliverStep s_super0 0

/-- A second activation arriving while run 0 is still awaiting the
correction (suspended at a poll sleep). -/
def s_pollCancel : SysState := handle_hotkey s_poll0

/-- Delivery of that cancellation: run 0 ends cancelled without ever
applying. -/
def s_cancelled0 : SysState := cancelDeliverStep s_pollCancel 0

/-- The correction service fails for run 0 (correct_grammar returns
None). -/
def s_fail0 : SysState := serviceCompleteStep s_poll0 0 none

/-- A capture in which the gateway cannot read a selection: the copy
key-chord leaves the (empty) clipboard unchanged. -/
def s_capEmpty : SysState := enterAcquireStep (handle_hotkey (initState "")) 0 none

/-! ## Helper lemmas about handle_hotkey -/

theorem handle_hotkey_lockHolder (s : SysState) :
    (handle_hotkey s).lockHolder = s.lockHolder := by
  unfold handle_hotkey
  cases s.currentTask with
  | none => rfl
  | some i =>
    dsimp only
    split <;> rfl

theorem handle_hotkey_nRuns (s : SysState) :
    (handle_hotkey s).nRuns = s.nRuns + 1 := by
  unfold handle_hotkey
  cases s.currentTask with
  | none => rfl
  | some i =>
    dsimp only
    split <;> rfl

theorem handle_hotkey_currentTask (s : SysState) :
    (handle_hotkey s).currentTask = some s.nRuns := by
  unfold handle_hotkey
  cases s.currentTask with
  | none => rfl
  | some i =>
    dsimp only
    split <;> rfl

theorem handle_hotkey_runs_new (s : SysState) :
    (handle_hotkey s).runs s.nRuns = newRun := by
  unfold handle_hotkey
  cases s.currentTask with
  | none => simp [upd]
  | some i =>
    dsimp only
    split <;> simp [upd]

theorem handle_hotkey_runs_old (s : SysState) (j : Nat) (hj : j ≠ s.nRuns) :
    ((handle_hotkey s).runs j).phase = (s.runs j).phase ∧
    ((handle_hotkey s).runs j).applied = (s.runs j).applied ∧
    ((handle_hotkey s).runs j).chatDone = (s.runs j).chatDone ∧
    ((handle_hotkey s).runs j).chatResult = (s.runs j).chatResult ∧
    ((s.runs j).cancelRequested = true → ((handle_hotkey s).runs j).cancelRequested = true) := by
  unfold handle_hotkey
  cases s.currentTask with
  | none => simp [upd, hj]
  | some i =>
    dsimp only
    split
    · simp [upd, hj]
    · by_cases hji : j = i
      · subst hji
        simp [upd, hj]
      · simp [upd, hj, hji]

/-! ## Helper lemmas about stripping and splitting -/

theorem dropWhile_dropWhile (p : Char → Bool) (l : List Char) :
    (l.dropWhile p).dropWhile p = l.dropWhile p := by
  induction l with
  | nil => rfl
  | cons c xs ih =>
    by_cases h : p c
    · simp [List.dropWhile_cons, h, ih]
    · simp [List.dropWhile_cons, h]

theorem rstrip_nil : rstripChars [] = [] := rfl

theorem rstrip_cons (c : Char) (xs : List Char) :
    rstripChars (c :: xs) =
      match rstripChars xs with
      | [] => if pyIsSpace c then [] else [c]
      | y :: ys => c :: y :: ys := by
  simp only [rstripChars]

theorem rstrip_idem (l : List Char) : rstripChars (rstripChars l) = rstripChars l := by
  induction l with
  | nil => rfl
  | cons c xs ih =>
    cases h : rstripChars xs with
    | nil =>
      by_cases hc : pyIsSpace c
      · simp [rstrip_cons, h, hc, rstrip_nil]
      · simp [rstrip_cons, h, hc, rstrip_nil]
    | cons y ys =>
      rw [h] at ih
      simp only [rstrip_cons, h, ih]

theorem dropWhile_rstrip (l : List Char) (h : l.dropWhile pyIsSpace = l) :
    (rstripChars l).dropWhile pyIsSpace = rstripChars l := by
  cases l with
  | nil => rfl
  | cons c xs =>
    have hc : pyIsSpace c = false := by
      by_contra hcc
      simp only [Bool.not_eq_false] at hcc
      rw [List.dropWhile_cons, if_pos hcc] at h
      have hlen := congrArg List.length h
      have hle := (List.dropWhile_sublist (l := xs) pyIsSpace).length_le
      simp only [List.length_cons] at hlen
      omega
    cases hr : rstripChars xs with
    | nil => simp [rstrip_cons, hr, hc, List.dropWhile_cons]
    | cons y ys => simp [rstrip_cons, hr, hc, List.dropWhile_cons]

theorem strip_idem (l : List Char) : stripChars (stripChars l) = stripChars l := by
  unfold stripChars
  rw [dropWhile_rstrip _ (dropWhile_dropWhile _ _), rstrip_idem]

theorem strip_eq_nil_of_allspace (l : List Char) (h : ∀ c ∈ l, pyIsSpace c = true) :
    stripChars l = [] := by
  unfold stripChars
  rw [List.dropWhile_eq_nil_iff.mpr h]
  rfl

theorem splitAux_allspace (l : List Char) :
    ∀ prev skipping acc, (∀ c ∈ l, pyIsSpace c = true) → (∀ c ∈ acc, pyIsSpace c = true) →
      ∀ piece ∈ splitSentencesAux l prev skipping acc, ∀ c ∈ piece, pyIsSpace c = true := by
  induction l with
  | nil =>
    intro prev skipping acc _ hacc piece hp c hcp
    simp only [splitSentencesAux, List.mem_singleton] at hp
    subst hp
    exact hacc c (List.mem_reverse.mp hcp)
  | cons d xs ih =>
    intro prev skipping acc hl hacc piece hp c hcp
    have hd : pyIsSpace d = true := hl d (by simp)
    have hxs : ∀ c ∈ xs, pyIsSpace c = true := fun c hc => hl c (by simp [hc])
    cases skipping with
    | true =>
      simp only [splitSentencesAux, hd, if_true, if_pos] at hp
      exact ih prev true acc hxs hacc piece hp c hcp
    | false =>
      by_cases hse : isSentenceEnd prev
      · simp only [splitSentencesAux, hse, hd, Bool.and_self, if_true,
          Bool.false_eq_true, if_false, List.mem_cons] at hp
        rcases hp with hp | hp
        · subst hp
          exact hacc c (List.mem_reverse.mp hcp)
        · exact ih prev true [] hxs (by simp) piece hp c hcp
      · simp only [Bool.not_eq_true] at hse
        simp only [splitSentencesAux, hse, hd, Bool.false_and,
          Bool.false_eq_true, if_false] at hp
        refine ih d false (d :: acc) hxs ?_ piece hp c hcp
        intro e he
        cases he with
        | head => exact hd
        | tail _ he2 => exact hacc e he2

/-! ## Claim theorems -/

/-- C3: when the correction service fails or returns an invalid or empty
corrected text (all those paths make correct_grammar return an unusable
value), the resumed pipeline skips the paste: the clipboard is left
unmodified, the run performs no apply and reaches the Completed terminal
state in its degraded form (the failure is only printed, never retried),
releasing the lock. -/
theorem service_failure_leaves_clipboard_completed (s : SysState) (i : Nat)
    (hd : (s.runs i).chatDone = true)
    (hu : usableResult (s.runs i).chatResult = false) :
    (pollResumeStep s i).clipboard = s.clipboard ∧
    ((pollResumeStep s i).runs i).phase = RunPhase.completed ∧
    ((pollResumeStep s i).runs i).applied = (s.runs i).applied ∧
    (pollResumeStep s i).lockHolder = none := by
  cases hres : (s.runs i).chatResult with
  | none => simp [pollResumeStep, hd, hres, upd]
  | some resp =>
    have hct : resp.corrected_text = "" := by
      rw [hres] at hu
      simp only [usableResult] at hu
      by_contra hne
      rw [if_neg hne] at hu
      exact Bool.noConfusion hu
    simp [pollResumeStep, hd, hres, hct, upd]

/-- Witness for C3 at a concrete execution: run 0 is awaiting the
correction and the service has answered with a failure. -/
theorem service_failure_leaves_clipboard_completed_witness :
    (s_fail0.runs 0).chatDone = true ∧
    usableResult (s_fail0.runs 0).chatResult = false ∧
    ((pollResumeStep s_fail0 0).clipboard = s_fail0.clipboard ∧
     ((pollResumeStep s_fail0 0).runs 0).phase = RunPhase.completed ∧
     ((pollResumeStep s_fail0 0).runs 0).applied = (s_fail0.runs 0).applied ∧
     (pollResumeStep s_fail0 0).lockHolder = none) :=
  ⟨by decide, by decide,
   service_failure_leaves_clipboard_completed s_fail0 0 (by decide) (by decide)⟩

/-- C4: one invocation of the activation handler, when a current run
exists and is not terminal, marks that run cancelled (requests
cancellation of its in-flight task), unconditionally creates a new run
with the next identifier and schedules it as the current task, and does
not wait for the superseded run's teardown: the old run's phase is
unchanged when the handler returns (handle_hotkey contains no await, so
it can never block on the old task finishing). -/
theorem handle_hotkey_activation_contract (s : SysState) (i : Nat)
    (hcur : s.currentTask = some i) (hi : i < s.nRuns)
    (hterm : ((s.runs i).phase).isTerminal = false) :
    ((handle_hotkey s).runs i).cancelRequested = true ∧
    ((handle_hotkey s).runs i).phase = (s.runs i).phase ∧
    (handle_hotkey s).nRuns = s.nRuns + 1 ∧
    (handle_hotkey s).currentTask = some s.nRuns ∧
    ((handle_hotkey s).runs s.nRuns).phase = RunPhase.notStarted ∧
    ((handle_hotkey s).runs s.nRuns).cancelRequested = false := by
  have hne : i ≠ s.nRuns := Nat.ne_of_lt hi
  have hne2 : s.nRuns ≠ i := Ne.symm hne
  unfold handle_hotkey taskDone
  rw [hcur]
  dsimp only
  rw [hterm]
  simp [upd, hne, hne2, newRun]

/-- Witness for C4 at a concrete execution: the current run 0 is in its
capture sleep when the second activation arrives. -/
theorem handle_hotkey_activation_contract_witness :
    s_cap0.currentTask = some 0 ∧ 0 < s_cap0.nRuns ∧
    ((s_cap0.runs 0).phase).isTerminal = false ∧
    (((handle_hotkey s_cap0).runs 0).cancelRequested = true ∧
     ((handle_hotkey s_cap0).runs 0).phase = (s_cap0.runs 0).phase ∧
     (handle_hotkey s_cap0).nRuns = s_cap0.nRuns + 1 ∧
     (handle_hotkey s_cap0).currentTask = some s_cap0.nRuns ∧
     ((handle_hotkey s_cap0).runs s_cap0.nRuns).phase = RunPhase.notStarted ∧
     ((handle_hotkey s_cap0).runs s_cap0.nRuns).cancelRequested = false) :=
  ⟨by decide, by decide, by decide,
   handle_hotkey_activation_contract s_cap0 0 (by decide) (by decide) (by decide)⟩

/-- C5 counterexample: the two startup failure exits do NOT use distinct
status codes — the unreachable-service path and the missing-model path
both call sys.exit(1), so the two outcomes are identical. -/
theorem startup_exit_codes_not_distinct :
    run_startup_tasks StartupCondition.unreachable = StartupOutcome.exitWith 1 ∧
    run_startup_tasks StartupCondition.modelMissing = StartupOutcome.exitWith 1 ∧
    run_startup_tasks StartupCondition.unreachable =
      run_startup_tasks StartupCondition.modelMissing :=
  ⟨rfl, rfl, rfl⟩

/-- C5 amended: at startup the service's reachability and the model's
availability are verified (in __init__, before the hotkey listener is
started); if the service is unreachable the process exits fatally with
status code 1, and if the model is missing it also exits fatally with
status code 1 — the two failures are distinguished by their printed
message, not by their status code. -/
theorem startup_exit_behavior :
    run_startup_tasks StartupCondition.ok = StartupOutcome.proceed ∧
    run_startup_tasks StartupCondition.unreachable = StartupOutcome.exitWith 1 ∧
    run_startup_tasks StartupCondition.modelMissing = StartupOutcome.exitWith 1 :=
  ⟨rfl, rfl, rfl⟩

/-- C6: once the cancellation flag is signaled while the chat task is
still pending, the wait loop of correct_grammar observes the flag at the
very next poll: it cancels the underlying chat task (so no unobserved
background call keeps running) and raises the cancellation, performing
no further 100ms sleep — the decision poll is the same tick `t` at
which the flag held, i.e. the outcome arrives within one bounded
polling interval. -/
theorem cancellation_observed_within_one_poll (done cancelled : Nat → Bool)
    (fuel t : Nat) (hd : done t = false) (hc : cancelled t = true) :
    pollLoop done cancelled (fuel + 1) t = (WaitOutcome.cancelledRaised true, t) := by
  simp [pollLoop, hd, hc]

/-- Witness for C6: the flag is set while the chat task never finishes;
the loop with 4 units of fuel decides at poll 0. -/
theorem cancellation_observed_within_one_poll_witness :
    (fun _ : Nat => false) 0 = false ∧ (fun _ : Nat => true) 0 = true ∧
    pollLoop (fun _ => false) (fun _ => true) 4 0 = (WaitOutcome.cancelledRaised true, 0) :=
  ⟨rfl, rfl, cancellation_observed_within_one_poll (fun _ => false) (fun _ => true) 3 0 rfl rfl⟩

/-- C7: a capture in which the clipboard gateway cannot read a selection
surfaces as empty captured text (the copy key-chord leaves the clipboard
unchanged — last conjunct — and paste() then returns the empty
clipboard); the pipeline proceeds into the correction phase with that
empty text instead of aborting, and no other run is affected by the
resumption. -/
theorem capture_empty_text_proceeds (s : SysState) (i : Nat) (h : s.clipboard = "") :
    ((captureResumeStep s i).runs i).phase = RunPhase.polling ∧
    ((captureResumeStep s i).runs i).originalText = "" ∧
    (captureResumeStep s i).clipboard = s.clipboard ∧
    (∀ j, j ≠ i → (captureResumeStep s i).runs j = s.runs j) ∧
    (acquireStep s i none).clipboard = s.clipboard := by
  refine ⟨?_, ?_, rfl, ?_, rfl⟩
  · simp [captureResumeStep, upd]
  · simp [captureResumeStep, upd, h]
  · intro j hj
    simp [captureResumeStep, upd, hj]

/-- Witness for C7 at a concrete execution: run 0 captured with an
unreadable selection over an empty clipboard. -/
theorem capture_empty_text_proceeds_witness :
    s_capEmpty.clipboard = "" ∧
    (((captureResumeStep s_capEmpty 0).runs 0).phase = RunPhase.polling ∧
     ((captureResumeStep s_capEmpty 0).runs 0).originalText = "" ∧
     (captureResumeStep s_capEmpty 0).clipboard = s_capEmpty.clipboard ∧
     (captureResumeStep s_capEmpty 0).runs 1 = s_capEmpty.runs 1 ∧
     (acquireStep s_capEmpty 0 none).clipboard = s_capEmpty.clipboard) := by
  have h := capture_empty_text_proceeds s_capEmpty 0 (by decide)
  exact ⟨by decide, h.1, h.2.1, h.2.2.1, h.2.2.2.1 1 (by decide), h.2.2.2.2⟩

/-- C8: the shared cancellation flag is False when the activation handler
returns — handle_hotkey sets it to True only transiently, inside its own
atomic execution, and unconditionally resets it to False before
returning — and the first block of the newly scheduled pipeline body
(whether it acquires the lock or starts waiting for it) sets it to False
again on entry; hence a run polling the shared flag after the handler
returns observes False. -/
theorem cancel_flag_false_after_handler_and_on_entry (s : SysState) (i : Nat)
    (sel : Option String) :
    (handle_hotkey s).cancelled = false ∧
    (enterAcquireStep s i sel).cancelled = false ∧
    (enterWaitStep s i).cancelled = false :=
  ⟨rfl, rfl, rfl⟩

/-- C9: every element of chunk_text is non-empty and equal to its own
strip (no leading or trailing whitespace), and chunk_text of an
all-whitespace — in particular empty — input is the empty list. -/
theorem chunk_text_pieces_stripped_nonempty (t : List Char) :
    (∀ e ∈ chunk_text t, e ≠ [] ∧ stripChars e = e) ∧
    ((∀ c ∈ t, pyIsSpace c = true) → chunk_text t = []) := by
  constructor
  · intro e he
    unfold chunk_text at he
    rcases List.mem_map.mp he with ⟨sp, hsp, rfl⟩
    have hf := List.mem_filter.mp hsp
    refine ⟨?_, strip_idem sp⟩
    intro hnil
    rw [hnil] at hf
    simp at hf
  · intro hall
    unfold chunk_text
    have hnilall : ∀ sp ∈ splitSentences t, stripChars sp = [] := by
      intro sp hsp
      refine strip_eq_nil_of_allspace sp ?_
      intro c hc
      exact splitAux_allspace t ' ' false [] hall (by simp) sp hsp c hc
    rw [List.filter_eq_nil_iff.mpr ?_]
    · rfl
    · intro sp hsp
      simp [hnilall sp hsp]

set_option maxRecDepth 4000 in
/-- Witness for C9 on the concrete input " Ok. Go!" (and an
all-whitespace input for the second part). -/
theorem chunk_text_pieces_stripped_nonempty_witness :
    (('O' :: 'k' :: '.' :: []) ∈
        chunk_text (' ' :: 'O' :: 'k' :: '.' :: ' ' :: 'G' :: 'o' :: '!' :: []) ∧
      (('O' :: 'k' :: '.' :: []) ≠ ([] : List Char) ∧
       stripChars ('O' :: 'k' :: '.' :: []) = ('O' :: 'k' :: '.' :: []))) ∧
    ((∀ c ∈ (' ' :: '\t' :: []), pyIsSpace c = true) ∧
      chunk_text (' ' :: '\t' :: []) = []) :=
  ⟨⟨by decide,
    (chunk_text_pieces_stripped_nonempty
        (' ' :: 'O' :: 'k' :: '.' :: ' ' :: 'G' :: 'o' :: '!' :: [])).1 _ (by decide)⟩,
   ⟨by decide,
    (chunk_text_pieces_stripped_nonempty (' ' :: '\t' :: [])).2 (by decide)⟩⟩

/-- C10: get_model, get_prompt and get_hotkey_combo fall back to their
built-in defaults both when the environment variable is unset and when
it is set to the empty string — Python truthiness makes the empty string
indistinguishable from no setting at all. -/
theorem env_empty_string_like_unset :
    get_model none = DEFAULT_MODEL ∧ get_model (some "") = DEFAULT_MODEL ∧
    get_model (some "") = get_model none ∧
    get_prompt none = DEFAULT_PROMPT ∧ get_prompt (some "") = DEFAULT_PROMPT ∧
    get_prompt (some "") = get_prompt none ∧
    get_hotkey_combo true (some "") = get_hotkey_combo true none ∧
    get_hotkey_combo false (some "") = get_hotkey_combo false none ∧
    get_hotkey_combo true none = "<ctrl>+<cmd>+a" ∧
    get_hotkey_combo false none = "<ctrl>+<alt>+a" := by
  refine ⟨rfl, ?_, ?_, rfl, ?_, ?_, ?_, ?_, rfl, rfl⟩ <;>
    simp [get_model, get_prompt, get_hotkey_combo]

/-! ## The lock invariant and mutual exclusion -/

theorem pollResume_runs_other (s : SysState) (i j : Nat) (hij : j ≠ i) :
    (pollResumeStep s i).runs j = s.runs j := by
  unfold pollResumeStep
  dsimp only
  split
  · split
    · split <;> simp [upd, hij]
    · simp [upd, hij]
  · split
    · simp [upd, hij]
    · rfl

theorem pollResume_nRuns (s : SysState) (i : Nat) :
    (pollResumeStep s i).nRuns = s.nRuns := by
  unfold pollResumeStep
  dsimp only
  split
  · split
    · split <;> rfl
    · rfl
  · split
    · rfl
    · rfl

theorem lockInv_step {s s2 : SysState} (h : Step s s2) (hs : LockInv s) : LockInv s2 := by
  cases h with
  | hotkey =>
    intro j hj
    rw [handle_hotkey_lockHolder]
    by_cases hj2 : j = s.nRuns
    · subst hj2
      rw [handle_hotkey_runs_new] at hj
      exact absurd hj (by decide)
    · rw [(handle_hotkey_runs_old s j hj2).1] at hj
      exact hs j hj
  | enterAcquire i sel hi hp hc hl =>
    intro j hj
    by_cases hji : j = i
    · subst hji
      simp [enterAcquireStep, acquireStep]
    · have hcj : inClip (s.runs j).phase = true := by
        simpa [enterAcquireStep, acquireStep, upd, hji] using hj
      have h2 := hs j hcj
      rw [hl] at h2
      exact Option.noConfusion h2
  | enterWait i hi hp hc hl =>
    intro j hj
    by_cases hji : j = i
    · subst hji
      simp [enterWaitStep, upd, inClip] at hj
    · have hcj : inClip (s.runs j).phase = true := by
        simpa [enterWaitStep, upd, hji] using hj
      simpa [enterWaitStep] using hs j hcj
  | acquireFromWait i sel hi hp hc hl =>
    intro j hj
    by_cases hji : j = i
    · subst hji
      simp [acquireStep]
    · have hcj : inClip (s.runs j).phase = true := by
        simpa [acquireStep, upd, hji] using hj
      have h2 := hs j hcj
      rw [hl] at h2
      exact Option.noConfusion h2
  | captureResume i hi hp hc =>
    intro j hj
    by_cases hji : j = i
    · subst hji
      have h2 := hs j (by rw [hp]; rfl)
      simpa [captureResumeStep] using h2
    · have hcj : inClip (s.runs j).phase = true := by
        simpa [captureResumeStep, upd, hji] using hj
      simpa [captureResumeStep] using hs j hcj
  | serviceComplete i res hi hp hd =>
    intro j hj
    have hcj : inClip (s.runs j).phase = true := by
      by_cases hji : j = i
      · subst hji
        simpa [serviceCompleteStep, upd] using hj
      · simpa [serviceCompleteStep, upd, hji] using hj
    simpa [serviceCompleteStep] using hs j hcj
  | pollResume i hi hp hc =>
    intro j hj
    have hli := hs i (by rw [hp]; rfl)
    by_cases hji : j = i
    · subst hji
      by_cases hdone : (s.runs j).chatDone
      · cases hres : (s.runs j).chatResult with
        | some resp =>
          by_cases hct : resp.corrected_text = ""
          · simp [pollResumeStep, hdone, hres, hct, upd, inClip] at hj
          · simp only [pollResumeStep, hdone, hres, hct, if_true, if_false,
              if_neg hct]
            exact hli
        | none => simp [pollResumeStep, hdone, hres, upd, inClip] at hj
      · by_cases hcanc : s.cancelled
        · simp [pollResumeStep, hdone, hcanc, upd, inClip] at hj
        · simp only [pollResumeStep, hdone, hcanc, Bool.not_eq_true,
            if_false] at hj ⊢
          simp only [eq_self_iff_true, if_neg, Bool.false_eq_true] at hj ⊢
          exact hs j hj
    · have hcj : inClip (s.runs j).phase = true := by
        rw [pollResume_runs_other s i j hji] at hj
        exact hj
      have h2 := hs j hcj
      rw [hli] at h2
      exact absurd (Option.some.inj h2) (fun he => hji he.symm)
  | applyResume i hi hp hc =>
    intro j hj
    by_cases hji : j = i
    · subst hji
      simp [applyResumeStep, upd, inClip] at hj
    · have hcj : inClip (s.runs j).phase = true := by
        simpa [applyResumeStep, upd, hji] using hj
      have hli := hs i (by rw [hp]; rfl)
      have h2 := hs j hcj
      rw [hli] at h2
      exact absurd (Option.some.inj h2) (fun he => hji he.symm)
  | cancelDeliver i hi hp hc =>
    intro j hj
    by_cases hji : j = i
    · subst hji
      simp [cancelDeliverStep, upd, inClip] at hj
    · have hcj : inClip (s.runs j).phase = true := by
        simpa [cancelDeliverStep, upd, hji] using hj
      have h2 := hs j hcj
      simp [cancelDeliverStep, h2, hji]

theorem lockInv_reachable {s : SysState} (h : Reachable s) : LockInv s := by
  induction h with
  | init c0 =>
    intro j hj
    simp [initState, newRun, inClip] at hj
  | step _ hstep ih => exact lockInv_step hstep ih

/-- C2: mutual exclusion of the clipboard-touching sections.  In every
state reachable by any sequence of activations and any interleaving of
the event loop, at most one run is inside the pipeline body (capture
sleep, awaiting the correction, or apply sleep): the whole body runs
under the single asyncio lock, so any two runs in those phases are the
same run. -/
theorem clipboard_sections_mutually_exclusive {s : SysState} (hs : Reachable s)
    (i j : Nat) (hi : inClip (s.runs i).phase = true)
    (hj : inClip (s.runs j).phase = true) : i = j := by
  have h1 := lockInv_reachable hs i hi
  have h2 := lockInv_reachable hs j hj
  rw [h1] at h2
  exact Option.some.inj h2

/-- Witness for C2 at a concrete reachable state with run 0 inside its
capture section. -/
theorem clipboard_sections_mutually_exclusive_witness :
    inClip (s_cap0.runs 0).phase = true ∧ (0 : Nat) = 0 := by
  have h0 : Reachable s_run0 := Reachable.step (Reachable.init "") (Step.hotkey _)
  have h1 : Reachable s_cap0 :=
    Reachable.step h0
      (Step.enterAcquire s_run0 0 (some "Their going to the store.")
        (by decide) (by decide) (by decide) (by decide))
  exact ⟨by decide,
    clipboard_sections_mutually_exclusive h1 0 0 (by decide) (by decide)⟩

/-! ## Cancellation before the apply phase -/

theorem cancel_pending_step {s s2 : SysState} (h : Step s s2) (i : Nat)
    (hi : i < s.nRuns)
    (hc : (s.runs i).cancelRequested = true)
    (ha : (s.runs i).applied = false)
    (hp : (s.runs i).phase ≠ RunPhase.applySleep) :
    i < s2.nRuns ∧ (s2.runs i).cancelRequested = true ∧
    (s2.runs i).applied = false ∧ (s2.runs i).phase ≠ RunPhase.applySleep ∧
    ((s2.runs i).phase = (s.runs i).phase ∨ (s2.runs i).phase = RunPhase.cancelledSt) := by
  cases h with
  | hotkey =>
    have hne : i ≠ s.nRuns := Nat.ne_of_lt hi
    have hr := handle_hotkey_runs_old s i hne
    refine ⟨?_, hr.2.2.2.2 hc, hr.2.1 ▸ ha, hr.1 ▸ hp, Or.inl hr.1⟩
    rw [handle_hotkey_nRuns]
    omega
  | enterAcquire j sel hj hpj hcj hl =>
    have hij : i ≠ j := fun he => by rw [he, hcj] at hc; exact Bool.noConfusion hc
    have hr : (enterAcquireStep s j sel).runs i = s.runs i := by
      simp [enterAcquireStep, acquireStep, upd, hij]
    rw [hr]
    exact ⟨hi, hc, ha, hp, Or.inl rfl⟩
  | enterWait j hj hpj hcj hl =>
    have hij : i ≠ j := fun he => by rw [he, hcj] at hc; exact Bool.noConfusion hc
    have hr : (enterWaitStep s j).runs i = s.runs i := by
      simp [enterWaitStep, upd, hij]
    rw [hr]
    exact ⟨hi, hc, ha, hp, Or.inl rfl⟩
  | acquireFromWait j sel hj hpj hcj hl =>
    have hij : i ≠ j := fun he => by rw [he, hcj] at hc; exact Bool.noConfusion hc
    have hr : (acquireStep s j sel).runs i = s.runs i := by
      simp [acquireStep, upd, hij]
    rw [hr]
    exact ⟨hi, hc, ha, hp, Or.inl rfl⟩
  | captureResume j hj hpj hcj =>
    have hij : i ≠ j := fun he => by rw [he, hcj] at hc; exact Bool.noConfusion hc
    have hr : (captureResumeStep s j).runs i = s.runs i := by
      simp [captureResumeStep, upd, hij]
    rw [hr]
    exact ⟨hi, hc, ha, hp, Or.inl rfl⟩
  | serviceComplete j res hj hpj hd =>
    by_cases hij : i = j
    · subst hij
      refine ⟨hi, ?_, ?_, ?_, Or.inl ?_⟩ <;>
        simp [serviceCompleteStep, upd, hc, ha, hp]
    · have hr : (serviceCompleteStep s j res).runs i = s.runs i := by
        simp [serviceCompleteStep, upd, hij]
      rw [hr]
      exact ⟨hi, hc, ha, hp, Or.inl rfl⟩
  | pollResume j hj hpj hcj =>
    have hij : i ≠ j := fun he => by rw [he, hcj] at hc; exact Bool.noConfusion hc
    rw [pollResume_runs_other s j i hij, pollResume_nRuns]
    exact ⟨hi, hc, ha, hp, Or.inl rfl⟩
  | applyResume j hj hpj hcj =>
    have hij : i ≠ j := fun he => by rw [he, hcj] at hc; exact Bool.noConfusion hc
    have hr : (applyResumeStep s j).runs i = s.runs i := by
      simp [applyResumeStep, upd, hij]
    rw [hr]
    exact ⟨hi, hc, ha, hp, Or.inl rfl⟩
  | cancelDeliver j hj hpj hcj =>
    by_cases hij : i = j
    · subst hij
      refine ⟨hi, ?_, ?_, ?_, Or.inr ?_⟩ <;>
        simp [cancelDeliverStep, upd, hc, ha]
    · have hr : (cancelDeliverStep s j).runs i = s.runs i := by
        simp [cancelDeliverStep, upd, hij]
      rw [hr]
      exact ⟨hi, hc, ha, hp, Or.inl rfl⟩

/-- C1 (amended): a run whose cancellation is requested while it has not
yet begun its apply phase (it has not written the clipboard and is not
suspended at the paste sleep) never executes the apply phase afterwards:
along every continuation of the execution it never performs the
copy-and-paste (applied stays false), never enters the applySleep phase,
and its phase can only stay what it was or become Cancelled.  This is
the guarantee the code actually provides: between the correction call
returning inside process_text and the apply there is no suspension
point, so a cancellation delivered while the run is still awaiting the
correction — even if the service result is already available — always
takes effect before the apply; the mechanism is CancelledError delivered
at the suspension point, not a flag check before Applying. -/
theorem cancel_before_apply_blocks_apply {s s2 : SysState} (i : Nat)
    (hstar : Relation.ReflTransGen Step s s2)
    (hi : i < s.nRuns)
    (hc : (s.runs i).cancelRequested = true)
    (ha : (s.runs i).applied = false)
    (hp : (s.runs i).phase ≠ RunPhase.applySleep) :
    (s2.runs i).applied = false ∧ (s2.runs i).phase ≠ RunPhase.applySleep ∧
    ((s2.runs i).phase = (s.runs i).phase ∨ (s2.runs i).phase = RunPhase.cancelledSt) := by
  suffices h : i < s2.nRuns ∧ (s2.runs i).cancelRequested = true ∧
      (s2.runs i).applied = false ∧ (s2.runs i).phase ≠ RunPhase.applySleep ∧
      ((s2.runs i).phase = (s.runs i).phase ∨ (s2.runs i).phase = RunPhase.cancelledSt) from
    ⟨h.2.2.1, h.2.2.2.1, h.2.2.2.2⟩
  induction hstar with
  | refl => exact ⟨hi, hc, ha, hp, Or.inl rfl⟩
  | tail hab hbc ih =>
    obtain ⟨h1, h2, h3, h4, h5⟩ := ih
    have hstep := cancel_pending_step hbc i h1 h2 h3 h4
    refine ⟨hstep.1, hstep.2.1, hstep.2.2.1, hstep.2.2.2.1, ?_⟩
    rcases hstep.2.2.2.2 with h6 | h6
    · rw [h6]
      exact h5
    · exact Or.inr h6

/-- Witness for C1 (amended) at a concrete execution: run 0 is cancelled
by a superseding activation while awaiting the correction; delivering
the cancellation leaves applied = false and the run in Cancelled, never
in applySleep. -/
theorem cancel_before_apply_blocks_apply_witness :
    0 < s_pollCancel.nRuns ∧
    (s_pollCancel.runs 0).cancelRequested = true ∧
    (s_pollCancel.runs 0).applied = false ∧
    (s_pollCancel.runs 0).phase ≠ RunPhase.applySleep ∧
    ((s_cancelled0.runs 0).applied = false ∧
     (s_cancelled0.runs 0).phase ≠ RunPhase.applySleep ∧
     ((s_cancelled0.runs 0).phase = (s_pollCancel.runs 0).phase ∨
      (s_cancelled0.runs 0).phase = RunPhase.cancelledSt)) :=
  ⟨by decide, by decide, by decide, by decide,
   cancel_before_apply_blocks_apply 0
     (Relation.ReflTransGen.single
       (Step.cancelDeliver s_pollCancel 0 (by decide) (by decide) (by decide)))
     (by decide) (by decide) (by decide) (by decide)⟩

/-- C1 counterexample: the claim as stated is false.  It asserts that
EVERY run cancelled by a superseding activation never executes its apply
phase.  But a second activation can arrive while the first run is
suspended at its paste sleep: handle_hotkey cancels any non-done current
task, and process_text contains no check of the cancellation flag before
entering the apply phase, so the run below has already written the
clipboard and injected the paste key-chord (applied = true), yet ends in
the Cancelled terminal state because the CancelledError is delivered at
the paste sleep.  The state s_cex1 is reachable by real event-loop
steps from the initial state. -/
theorem cancelled_run_with_executed_apply :
    Reachable s_cex1 ∧
    (s_cex1.runs 0).cancelRequested = true ∧
    (s_cex1.runs 0).phase = RunPhase.cancelledSt ∧
    (s_cex1.runs 0).applied = true ∧
    s_cex1.clipboard = "They are going to the store." := by
  refine ⟨?_, by decide, by decide, by decide, by decide⟩
  have h0 : Reachable s_run0 := Reachable.step (Reachable.init "") (Step.hotkey _)
  have h1 : Reachable s_cap0 :=
    Reachable.step h0
      (Step.enterAcquire s_run0 0 (some "Their going to the store.")
        (by decide) (by decide) (by decide) (by decide))
  have h2 : Reachable s_poll0 :=
    Reachable.step h1
      (Step.captureResume s_cap0 0 (by decide) (by decide) (by decide))
  have h3 : Reachable s_done0 :=
    Reachable.step h2
      (Step.serviceComplete s_poll0 0 (some respEx) (by decide) (by decide) (by decide))
  have h4 : Reachable s_apply0 :=
    Reachable.step h3
      (Step.pollResume s_done0 0 (by decide) (by decide) (by decide))
  have h5 : Reachable s_super0 := Reachable.step h4 (Step.hotkey _)
  exact Reachable.step h5
    (Step.cancelDeliver s_super0 0 (by decide) (by decide) (by decide))

end GrammarLlama
